import Mathlib

/-!
Verification of the fetch-and-combine pipeline of
`kucoin_historical_data_dumper.py` (class `KuCoinDataFetcher`).

The pipeline core is `get_combined_data` together with its inner worker
`download_and_process`.  We give a shallow embedding: the external world
(the HTTP transport plus the zip/csv decode machinery) is modelled as a
function from a date to an `HttpResponse`, where the response records the
transport status and what the decode step would yield on its body (a
decoded table, or the exception the zip/csv handling raises).  A worker's
observable behaviour is a `FetchEffects` record: its Python return value
(`Except` models a raised exception, `Option` models `return None`), the
files it writes, and the log messages it emits.  `get_combined_data`
returns `Except String RunResult`: an `Except.error` models the
enumeration exception propagating out of the method, and a `RunResult`
packages the combined table with the run's log and file-write effect
streams.  Completion order of the thread pool is modelled as submission
order; all properties proved below are insensitive to the collection
order, which the code does not fix either.
-/

namespace KucoinDumper

/-- One data row of a decoded CSV table. -/
abbrev Row := List String

/-- A decoded CSV table: the list of its data rows
(`pd.read_csv` keeps headers apart from the rows; row count is `len(df)`). -/
abbrev Table := List Row

/-- Outcome of the zip-decompress-and-decode step applied to the body of a
200 response: either the decoded table, or the message of the exception the
`zipfile`/`read_csv` machinery raises (malformed archive, empty namelist, …). -/
inductive DecodeResult where
  | ok (t : Table)
  | err (e : String)
deriving DecidableEq

/-- What `requests.get` returns for one archive URL: the transport status
code, and what the decode step would produce on the payload. -/
structure HttpResponse where
  status : Nat
  decoded : DecodeResult
deriving DecidableEq

/-- A message emitted through `LOGGER`. -/
inductive LogMsg where
  | info (s : String)
  | warning (s : String)
  | error (s : String)
deriving DecidableEq

/-- The log line of `LOGGER.error(f"Failed to download data for date {date}.
Status code: {response.status_code}")`. -/
def statusFailLog (date : String) (code : Nat) : LogMsg :=
  .error ("Failed to download data for date " ++ date ++ ". Status code: " ++ toString code)

/-- The log line of `LOGGER.error(f"Exception occurred while processing date
{date}: {e}")`. -/
def excLog (date e : String) : LogMsg :=
  .error ("Exception occurred while processing date " ++ date ++ ": " ++ e)

/-- The log line of the `if not dates` early-return branch. -/
def noDatesLog (ticker frequency : String) : LogMsg :=
  .warning ("No dates available for ticker " ++ ticker ++ " and frequency " ++ frequency ++ ".")

/-- The log line of the `all_data` empty branch. -/
def noDataLog (ticker : String) : LogMsg :=
  .warning ("No data was downloaded for ticker " ++ ticker ++ ".")

/-- The log line reporting the combined row count. -/
def combinedLog (n : Nat) : LogMsg :=
  .info ("Combined data contains " ++ toString n ++ " rows.")

/-- The deterministic save path
`os.path.join(output_dir, ticker, frequency, f"{ticker}-{frequency}-{date}.csv")`. -/
def savePath (output_dir ticker frequency date : String) : String :=
  output_dir ++ "/" ++ ticker ++ "/" ++ frequency ++ "/" ++
    ticker ++ "-" ++ frequency ++ "-" ++ date ++ ".csv"

instance {α β : Type} [DecidableEq α] [DecidableEq β] : DecidableEq (Except α β) := fun a b =>
  match a, b with
  | .ok x, .ok y =>
      if h : x = y then isTrue (congrArg Except.ok h)
      else isFalse fun hc => h (by cases hc; rfl)
  | .error x, .error y =>
      if h : x = y then isTrue (congrArg Except.error h)
      else isFalse fun hc => h (by cases hc; rfl)
  | .ok _, .error _ => isFalse fun hc => nomatch hc
  | .error _, .ok _ => isFalse fun hc => nomatch hc

/-- Observable behaviour of one `download_and_process(date)` call:
`ret` is the Python return (`Except.error e` = the call raised exception `e`,
`.ok none` = it returned `None`, `.ok (some t)` = it returned the table `t`);
`writes` are the `(path, table)` pairs written by `df.to_csv`;
`logs` are the log lines emitted inside the worker. -/
structure FetchEffects where
  ret : Except String (Option Table)
  writes : List (String × Table)
  logs : List LogMsg
deriving DecidableEq

/-- Embedding of the inner worker `download_and_process(date)` of
`get_combined_data`.  On `status_code == 200` it decodes the single zip
member; a decode exception propagates (`.error`); on a decoded table it
optionally writes the CSV to `savePath` and returns the table.  On any other
status it logs the failure with the status code and returns `None`. -/
def download_and_process (ticker frequency date : String) (resp : HttpResponse)
    (save_to_disk : Bool) (output_dir : String) : FetchEffects :=
  if resp.status = 200 then
    match resp.decoded with
    | .ok df =>
        { ret := .ok (some df)
          writes := if save_to_disk then [(savePath output_dir ticker frequency date, df)] else []
          logs := [] }
    | .err e => { ret := .error e, writes := [], logs := [] }
  else
    { ret := .ok none, writes := [], logs := [statusFailLog date resp.status] }

/-- The table a worker's return contributes to `all_data`: only a non-`None`
return of a non-raising call is appended (`if df is not None`). -/
def successTable : Except String (Option Table) → Option Table
  | .ok (some t) => some t
  | _ => none

/-- The resolved outcome of one requested date key, as the collection loop of
`get_combined_data` treats it: the returned table counts as a success; a
`None` return (non-success status) or a raised exception counts as a failure
for that date and contributes nothing. -/
inductive FetchOutcome where
  | success (date : String) (t : Table)
  | failure (date : String)
deriving DecidableEq

/-- Whether an outcome is a success. -/
def isSuccess : FetchOutcome → Bool
  | .success _ _ => true
  | .failure _ => false

/-- The DateKey an outcome is tagged with. -/
def outcomeDate : FetchOutcome → String
  | .success d _ => d
  | .failure d => d

/-- The table of a success outcome. -/
def outcomeTable : FetchOutcome → Option Table
  | .success _ t => some t
  | .failure _ => none

/-- How the collection loop resolves one worker's return into an outcome for
its date: `try: df = future.result()` / `if df is not None` / `except`. -/
def outcomeOfRet (date : String) (r : Except String (Option Table)) : FetchOutcome :=
  match r with
  | .ok (some t) => .success date t
  | _ => .failure date

/-- The coordinator step of `get_combined_data`: one worker is submitted per
date of the request list, and each resolves to exactly one tagged outcome. -/
def retrieve_all (ticker frequency : String) (dates : List String)
    (respOf : String → HttpResponse) (save_to_disk : Bool) (output_dir : String) :
    List FetchOutcome :=
  dates.map fun d =>
    outcomeOfRet d (download_and_process ticker frequency d (respOf d) save_to_disk output_dir).ret

/-- The combiner: keep the tables of the success outcomes and concatenate
them (`all_data.append(df)` then `pd.concat(all_data)`, with
`pd.DataFrame()` when nothing was collected). -/
def combine (outcomes : List FetchOutcome) : Table :=
  (outcomes.filterMap outcomeTable).flatten

/-- The effective request list: `dates` when the caller passed one is
filtered by membership in the enumerated `available_dates`
(`[date for date in dates if date in available_dates]`); otherwise the
enumeration itself is used. -/
def effectiveDates (dates : Option (List String)) (available_dates : List String) : List String :=
  match dates with
  | none => available_dates
  | some ds => ds.filter fun d => decide (d ∈ available_dates)

/-- The observable result of one non-raising `get_combined_data` run: the
combined table it returns, plus the log lines and CSV file writes emitted
along the way. -/
structure RunResult where
  combined : Table
  logs : List LogMsg
  writes : List (String × Table)
deriving DecidableEq

/-- The per-date worker effects of one run, in submission order
(`executor.submit(download_and_process, date) for date in dates`). -/
def runEffects (ticker frequency : String) (ds : List String)
    (respOf : String → HttpResponse) (save_to_disk : Bool) (output_dir : String) :
    List (String × FetchEffects) :=
  ds.map fun d => (d, download_and_process ticker frequency d (respOf d) save_to_disk output_dir)

/-- The `all_data` accumulator after the collection loop: the tables of the
workers that returned one (`if df is not None: all_data.append(df)`). -/
def allData (ticker frequency : String) (ds : List String)
    (respOf : String → HttpResponse) (save_to_disk : Bool) (output_dir : String) : List Table :=
  (runEffects ticker frequency ds respOf save_to_disk output_dir).filterMap fun p =>
    successTable p.2.ret

/-- The log lines emitted inside the workers during one run. -/
def fetchLogs (ticker frequency : String) (ds : List String)
    (respOf : String → HttpResponse) (save_to_disk : Bool) (output_dir : String) : List LogMsg :=
  ((runEffects ticker frequency ds respOf save_to_disk output_dir).map fun p => p.2.logs).flatten

/-- The log lines emitted by the collection loop's `except` clause: one per
worker whose call raised, keyed by that worker's date. -/
def loopLogs (ticker frequency : String) (ds : List String)
    (respOf : String → HttpResponse) (save_to_disk : Bool) (output_dir : String) : List LogMsg :=
  (runEffects ticker frequency ds respOf save_to_disk output_dir).filterMap fun p =>
    match p.2.ret with
    | .error e => some (excLog p.1 e)
    | _ => none

/-- The CSV file writes performed by the workers during one run. -/
def runWrites (ticker frequency : String) (ds : List String)
    (respOf : String → HttpResponse) (save_to_disk : Bool) (output_dir : String) :
    List (String × Table) :=
  ((runEffects ticker frequency ds respOf save_to_disk output_dir).map fun p => p.2.writes).flatten

/-- Embedding of `get_combined_data`.  `enumeration` is what
`get_available_dates` does (`.error` = it raised, propagating out of the
method since the call sits outside any `try`); `respOf` gives the transport
response per date.  The thread-pool loop is modelled in submission order:
each date's worker effects are collected, a raised worker exception is
caught and logged against its date, non-`None` tables are appended to
`all_data`, and the combined table (or an empty one) is returned. -/
def get_combined_data (ticker frequency : String) (dates : Option (List String))
    (save_to_disk : Bool) (output_dir : String)
    (enumeration : Except String (List String)) (respOf : String → HttpResponse) :
    Except String RunResult :=
  match enumeration with
  | .error e => .error e
  | .ok available_dates =>
    let ds := effectiveDates dates available_dates
    if ds = [] then
      .ok { combined := [], logs := [noDatesLog ticker frequency], writes := [] }
    else
      let all_data := allData ticker frequency ds respOf save_to_disk output_dir
      let fl := fetchLogs ticker frequency ds respOf save_to_disk output_dir
      let ll := loopLogs ticker frequency ds respOf save_to_disk output_dir
      let w := runWrites ticker frequency ds respOf save_to_disk output_dir
      if all_data = [] then
        .ok { combined := [], logs := fl ++ ll ++ [noDataLog ticker], writes := w }
      else
        .ok { combined := all_data.flatten,
              logs := fl ++ ll ++ [combinedLog all_data.flatten.length],
              writes := w }

/-! ### Helper lemmas -/

theorem outcomeDate_outcomeOfRet (d : String) (r : Except String (Option Table)) :
    outcomeDate (outcomeOfRet d r) = d := by
  cases r with
  | ok o => cases o <;> rfl
  | error e => rfl

theorem allData_eq_filterMap (ticker frequency : String) (ds : List String)
    (respOf : String → HttpResponse) (save_to_disk : Bool) (output_dir : String) :
    allData ticker frequency ds respOf save_to_disk output_dir
      = ds.filterMap fun d =>
          successTable (download_and_process ticker frequency d (respOf d)
            save_to_disk output_dir).ret := by
  rw [allData, runEffects, List.filterMap_map]
  rfl

theorem get_combined_data_empty_branch (ticker frequency : String)
    (dates : Option (List String)) (save_to_disk : Bool) (output_dir : String)
    (avail : List String) (respOf : String → HttpResponse)
    (h : effectiveDates dates avail = []) :
    get_combined_data ticker frequency dates save_to_disk output_dir (.ok avail) respOf
      = .ok { combined := [], logs := [noDatesLog ticker frequency], writes := [] } := by
  simp [get_combined_data, h]

theorem get_combined_data_nodata_branch (ticker frequency : String)
    (dates : Option (List String)) (save_to_disk : Bool) (output_dir : String)
    (avail : List String) (respOf : String → HttpResponse)
    (h : effectiveDates dates avail ≠ [])
    (h2 : allData ticker frequency (effectiveDates dates avail) respOf
            save_to_disk output_dir = []) :
    get_combined_data ticker frequency dates save_to_disk output_dir (.ok avail) respOf
      = .ok { combined := []
              logs := fetchLogs ticker frequency (effectiveDates dates avail) respOf
                          save_to_disk output_dir
                    ++ loopLogs ticker frequency (effectiveDates dates avail) respOf
                          save_to_disk output_dir
                    ++ [noDataLog ticker]
              writes := runWrites ticker frequency (effectiveDates dates avail) respOf
                          save_to_disk output_dir } := by
  simp [get_combined_data, h, h2]

theorem get_combined_data_data_branch (ticker frequency : String)
    (dates : Option (List String)) (save_to_disk : Bool) (output_dir : String)
    (avail : List String) (respOf : String → HttpResponse)
    (h : effectiveDates dates avail ≠ [])
    (h2 : allData ticker frequency (effectiveDates dates avail) respOf
            save_to_disk output_dir ≠ []) :
    get_combined_data ticker frequency dates save_to_disk output_dir (.ok avail) respOf
      = .ok { combined := (allData ticker frequency (effectiveDates dates avail) respOf
                              save_to_disk output_dir).flatten
              logs := fetchLogs ticker frequency (effectiveDates dates avail) respOf
                          save_to_disk output_dir
                    ++ loopLogs ticker frequency (effectiveDates dates avail) respOf
                          save_to_disk output_dir
                    ++ [combinedLog (allData ticker frequency (effectiveDates dates avail)
                          respOf save_to_disk output_dir).flatten.length]
              writes := runWrites ticker frequency (effectiveDates dates avail) respOf
                          save_to_disk output_dir } := by
  simp [get_combined_data, h, h2]

/-- In every branch reached with a successful enumeration, the run returns
`.ok` and its combined table is the concatenation of the `all_data` tables
over the effective request list; when the request list is nonempty, the
worker logs and the loop's exception logs are part of the returned log. -/
theorem get_combined_data_ok (ticker frequency : String) (dates : Option (List String))
    (save_to_disk : Bool) (output_dir : String) (avail : List String)
    (respOf : String → HttpResponse) :
    ∃ r, get_combined_data ticker frequency dates save_to_disk output_dir
          (.ok avail) respOf = .ok r ∧
      r.combined = (allData ticker frequency (effectiveDates dates avail) respOf
                      save_to_disk output_dir).flatten ∧
      (effectiveDates dates avail ≠ [] →
        ∃ tail,
          r.logs = fetchLogs ticker frequency (effectiveDates dates avail) respOf
                      save_to_disk output_dir
                ++ loopLogs ticker frequency (effectiveDates dates avail) respOf
                      save_to_disk output_dir
                ++ tail) := by
  by_cases h : effectiveDates dates avail = []
  · refine ⟨_, get_combined_data_empty_branch ticker frequency dates save_to_disk
      output_dir avail respOf h, ?_, fun hc => absurd h hc⟩
    simp [h, allData, runEffects]
  · by_cases h2 : allData ticker frequency (effectiveDates dates avail) respOf
        save_to_disk output_dir = []
    · refine ⟨_, get_combined_data_nodata_branch ticker frequency dates save_to_disk
        output_dir avail respOf h h2, by simp [h2], fun _ => ⟨[noDataLog ticker], rfl⟩⟩
    · exact ⟨_, get_combined_data_data_branch ticker frequency dates save_to_disk
        output_dir avail respOf h h2, rfl, fun _ => ⟨_, rfl⟩⟩

/-! ### Claims -/

/-- C1: every requested DateKey resolves to exactly one outcome — the list of
resolved outcomes is tagged with exactly the requested dates, in particular
no key is dropped or resolved twice, and the number of success outcomes plus
the number of failure outcomes equals the size of the request list.  In this
embedding the coordinator's return value covers all dispatched keys, which
is the functional content of "returns only after every dispatched fetch has
resolved, never partially or early". -/
theorem retrieveAll_resolves_every_key (ticker frequency : String) (dates : List String)
    (respOf : String → HttpResponse) (save_to_disk : Bool) (output_dir : String) :
    (retrieve_all ticker frequency dates respOf save_to_disk output_dir).map outcomeDate
        = dates ∧
    ((retrieve_all ticker frequency dates respOf save_to_disk output_dir).filter
        isSuccess).length
      + ((retrieve_all ticker frequency dates respOf save_to_disk output_dir).filter
          fun o => !isSuccess o).length
      = dates.length := by
  constructor
  · rw [retrieve_all, List.map_map]
    have h : ∀ d : String,
        (outcomeDate ∘ fun d => outcomeOfRet d (download_and_process ticker frequency d
          (respOf d) save_to_disk output_dir).ret) d = id d := fun d =>
      outcomeDate_outcomeOfRet d _
    rw [List.map_congr_left fun d _ => h d, List.map_id]
  · calc ((retrieve_all ticker frequency dates respOf save_to_disk output_dir).filter
            isSuccess).length
          + ((retrieve_all ticker frequency dates respOf save_to_disk output_dir).filter
              fun o => !isSuccess o).length
        = (retrieve_all ticker frequency dates respOf save_to_disk output_dir).length :=
          (List.length_eq_length_filter_add isSuccess).symm
      _ = dates.length := by rw [retrieve_all, List.length_map]

/-- C2: the combined dataset contains rows only from success outcomes — every
row of `combine outcomes` is a row of some success outcome's table — and its
row count is the sum of the row counts of the success outcomes' tables. -/
theorem combine_only_success_rows (outcomes : List FetchOutcome) :
    (combine outcomes).length = ((outcomes.filterMap outcomeTable).map List.length).sum ∧
    ∀ r ∈ combine outcomes, ∃ d t, FetchOutcome.success d t ∈ outcomes ∧ r ∈ t := by
  constructor
  · exact List.length_flatten _
  · intro r hr
    rw [combine, List.mem_flatten] at hr
    obtain ⟨t, ht, hrt⟩ := hr
    rw [List.mem_filterMap] at ht
    obtain ⟨o, ho, hot⟩ := ht
    cases o with
    | success d t0 =>
        refine ⟨d, t0, ho, ?_⟩
        cases hot
        exact hrt
    | failure d => exact absurd hot (by simp [outcomeTable])

/-- Witness for C2 at a concrete outcome list: two fetched rows in total, and
the row `["a"]` traces back to a success outcome's table. -/
theorem combine_only_success_rows_witness :
    ∃ d t, FetchOutcome.success d t
        ∈ [FetchOutcome.success "2024-07-02" [["a"], ["b"]],
           FetchOutcome.failure "2024-07-03"]
      ∧ ["a"] ∈ t :=
  (combine_only_success_rows
    [FetchOutcome.success "2024-07-02" [["a"], ["b"]],
     FetchOutcome.failure "2024-07-03"]).2 ["a"] (by decide)

theorem countP_of_unique_false {α : Type} [DecidableEq α] (p : α → Bool) (a0 : α)
    (l : List α) (h1 : l.count a0 = 1) (h2 : ∀ a ∈ l, a ≠ a0 → p a = true)
    (h3 : p a0 = false) : l.countP p = l.length - 1 := by
  induction l with
  | nil => simp at h1
  | cons a l ih =>
    by_cases ha : a = a0
    · subst ha
      have hl0 : l.count a = 0 := by
        have := List.count_cons_self a l
        omega
      have hall : ∀ b ∈ l, p b = true := fun b hb =>
        h2 b (List.mem_cons_of_mem _ hb)
          (fun hba => (List.count_eq_zero.mp hl0) (hba ▸ hb))
      rw [List.countP_cons, h3]
      simp [List.countP_eq_length.mpr hall]
    · have h1' : l.count a0 = 1 := by
        rw [List.count_cons] at h1
        simp only [beq_iff_eq, if_neg ha] at h1
        omega
      have hpa : p a = true := h2 a (List.mem_cons_self a l) ha
      have hmem : a0 ∈ l := List.count_pos_iff.mp (by rw [h1']; exact Nat.one_pos)
      have hlen : 1 ≤ l.length := List.length_pos.mpr (List.ne_nil_of_mem hmem)
      rw [List.countP_cons, hpa,
        ih h1' (fun b hb hbne => h2 b (List.mem_cons_of_mem _ hb) hbne)]
      simp
      omega

/-- C3: an exception raised inside one fetch is caught and resolved as a
failure outcome keyed by its DateKey, and it never aborts sibling fetches:
with one key whose worker raises and every other key succeeding, the other
`n - 1` keys all resolve to success outcomes. -/
theorem fetch_exception_isolated (ticker frequency : String) (dates : List String)
    (respOf : String → HttpResponse) (save_to_disk : Bool) (output_dir : String)
    (d0 e : String)
    (h1 : dates.count d0 = 1)
    (hfail : (download_and_process ticker frequency d0 (respOf d0) save_to_disk
        output_dir).ret = .error e)
    (hok : ∀ d ∈ dates, d ≠ d0 →
        ∃ t, (download_and_process ticker frequency d (respOf d) save_to_disk
          output_dir).ret = .ok (some t)) :
    FetchOutcome.failure d0
        ∈ retrieve_all ticker frequency dates respOf save_to_disk output_dir ∧
    ((retrieve_all ticker frequency dates respOf save_to_disk output_dir).filter
        isSuccess).length = dates.length - 1 := by
  constructor
  · have hd0 : d0 ∈ dates := List.count_pos_iff.mp (by rw [h1]; exact Nat.one_pos)
    rw [retrieve_all]
    refine List.mem_map.mpr ⟨d0, hd0, ?_⟩
    rw [hfail]
    rfl
  · rw [retrieve_all, ← List.countP_eq_length_filter, List.countP_map]
    refine countP_of_unique_false _ d0 dates h1 (fun d hd hne => ?_) ?_
    · obtain ⟨t, ht⟩ := hok d hd hne
      simp [Function.comp, ht, outcomeOfRet, isSuccess]
    · simp [Function.comp, hfail, outcomeOfRet, isSuccess]

/-- Witness for C3: among two requested dates, the second's worker raises
`"boom"`; it resolves to a failure keyed by that date and the other date
still yields a success — one success outcome out of two keys. -/
theorem fetch_exception_isolated_witness :
    FetchOutcome.failure "2024-07-03"
        ∈ retrieve_all "BTCUSDT" "1d" ["2024-07-02", "2024-07-03"]
            (fun d => if d = "2024-07-03" then ⟨200, .err "boom"⟩ else ⟨200, .ok [["r"]]⟩)
            false "kucoin_data" ∧
    ((retrieve_all "BTCUSDT" "1d" ["2024-07-02", "2024-07-03"]
        (fun d => if d = "2024-07-03" then ⟨200, .err "boom"⟩ else ⟨200, .ok [["r"]]⟩)
        false "kucoin_data").filter isSuccess).length = 1 := by
  have h := fetch_exception_isolated "BTCUSDT" "1d" ["2024-07-02", "2024-07-03"]
      (fun d => if d = "2024-07-03" then ⟨200, .err "boom"⟩ else ⟨200, .ok [["r"]]⟩)
      false "kucoin_data" "2024-07-03" "boom" (by decide) (by decide)
      (fun d hd hne => by
        have : d = "2024-07-02" ∨ d = "2024-07-03" := by simpa using hd
        rcases this with h02 | h03
        · subst h02
          exact ⟨[["r"]], by decide⟩
        · exact absurd h03 hne)
  simpa using h

/-- C4: a run of the combiner over outcomes with zero successes (the empty
sequence included) yields the explicitly empty dataset, and a whole pipeline
run in which no fetch succeeds still returns `.ok` with an empty combined
table rather than an error. -/
theorem zero_successes_empty_dataset (ticker frequency output_dir : String)
    (dates : Option (List String)) (save_to_disk : Bool)
    (avail : List String) (respOf : String → HttpResponse)
    (outcomes : List FetchOutcome)
    (hout : ∀ o ∈ outcomes, isSuccess o = false)
    (hrun : ∀ d, successTable (download_and_process ticker frequency d (respOf d)
        save_to_disk output_dir).ret = none) :
    combine outcomes = [] ∧
    ∃ r, get_combined_data ticker frequency dates save_to_disk output_dir
          (.ok avail) respOf = .ok r ∧ r.combined = [] := by
  constructor
  · rw [combine]
    have hnil : outcomes.filterMap outcomeTable = [] :=
      List.filterMap_eq_nil_iff.mpr (fun o ho => by
        cases o with
        | success d t => exact absurd (hout _ ho) (by simp [isSuccess])
        | failure d => rfl)
    rw [hnil]
    rfl
  · obtain ⟨r, hr, hc, -⟩ := get_combined_data_ok ticker frequency dates save_to_disk
      output_dir avail respOf
    refine ⟨r, hr, ?_⟩
    rw [hc, allData_eq_filterMap]
    rw [List.filterMap_eq_nil_iff.mpr (fun d _ => hrun d)]
    rfl

/-- Witness for C4: a single requested date whose transport answers 404 —
the combiner yields `[]` on the resolved (all-failure) outcome list and the
run returns `.ok` with an empty combined table. -/
theorem zero_successes_empty_dataset_witness :
    combine [FetchOutcome.failure "2024-07-02"] = [] ∧
    ∃ r, get_combined_data "BTCUSDT" "1d" none false "kucoin_data"
        (.ok ["2024-07-02"]) (fun _ => ⟨404, .ok []⟩) = .ok r ∧ r.combined = [] :=
  zero_successes_empty_dataset "BTCUSDT" "1d" "kucoin_data" none false ["2024-07-02"]
    (fun _ => ⟨404, .ok []⟩) [FetchOutcome.failure "2024-07-02"]
    (by decide) (fun d => rfl)

theorem download_and_process_nonsuccess (ticker frequency date : String)
    (resp : HttpResponse) (save_to_disk : Bool) (output_dir : String)
    (h : resp.status ≠ 200) :
    download_and_process ticker frequency date resp save_to_disk output_dir
      = { ret := .ok none, writes := [], logs := [statusFailLog date resp.status] } := by
  simp only [download_and_process, if_neg h]

/-- C5, counterexample: two fetches of the same key whose responses differ
only in the non-success transport status (404 versus 500) return the very
same value (`None`), so the value returned on a non-success status does not
carry the status code.  (The status code goes to the error log only.) -/
theorem failure_outcome_drops_status_code :
    (download_and_process "BTCUSDT" "1d" "2024-07-02"
        { status := 404, decoded := .ok [["r"]] } false "kucoin_data").ret
      = (download_and_process "BTCUSDT" "1d" "2024-07-02"
          { status := 500, decoded := .ok [["r"]] } false "kucoin_data").ret
    ∧ (download_and_process "BTCUSDT" "1d" "2024-07-02"
        { status := 404, decoded := .ok [["r"]] } false "kucoin_data").ret
      = .ok none :=
  ⟨rfl, rfl⟩

/-- C5, amended: on every non-success transport status the fetcher returns
`None` (a failure) without raising and without writing any file, and it
emits an error log line carrying the status code; the status code is
reported in that log, not in the returned value. -/
theorem nonsuccess_status_returns_none_and_logs (ticker frequency date : String)
    (resp : HttpResponse) (save_to_disk : Bool) (output_dir : String)
    (h : resp.status ≠ 200) :
    (download_and_process ticker frequency date resp save_to_disk output_dir).ret
        = .ok none ∧
    (download_and_process ticker frequency date resp save_to_disk output_dir).logs
        = [statusFailLog date resp.status] ∧
    (download_and_process ticker frequency date resp save_to_disk output_dir).writes
        = [] := by
  rw [download_and_process_nonsuccess ticker frequency date resp save_to_disk output_dir h]
  exact ⟨rfl, rfl, rfl⟩

/-- Witness for the amended C5 at status 404. -/
theorem nonsuccess_status_returns_none_and_logs_witness :
    (download_and_process "BTCUSDT" "1d" "2024-07-02"
        { status := 404, decoded := .ok [["r"]] } false "kucoin_data").ret = .ok none ∧
    (download_and_process "BTCUSDT" "1d" "2024-07-02"
        { status := 404, decoded := .ok [["r"]] } false "kucoin_data").logs
      = [statusFailLog "2024-07-02" 404] ∧
    (download_and_process "BTCUSDT" "1d" "2024-07-02"
        { status := 404, decoded := .ok [["r"]] } false "kucoin_data").writes = [] :=
  nonsuccess_status_returns_none_and_logs "BTCUSDT" "1d" "2024-07-02"
    { status := 404, decoded := .ok [["r"]] } false "kucoin_data" (by decide)

/-- C6: the effective request list is the intersection of the caller's date
list with the enumerated availability (membership-wise), and when no
requested date is available the effective list is empty and the run returns
at once — `.ok` with an empty dataset, the early-return warning as its only
log line and no fetch effects (no writes) — a valid non-error outcome. -/
theorem empty_intersection_early_return (ticker frequency output_dir : String)
    (ds avail : List String) (save_to_disk : Bool) (respOf : String → HttpResponse)
    (h : ∀ d ∈ ds, d ∉ avail) :
    (∀ x, x ∈ effectiveDates (some ds) avail ↔ x ∈ ds ∧ x ∈ avail) ∧
    effectiveDates (some ds) avail = [] ∧
    get_combined_data ticker frequency (some ds) save_to_disk output_dir (.ok avail) respOf
      = .ok { combined := [], logs := [noDatesLog ticker frequency], writes := [] } := by
  have hmem : ∀ x, x ∈ effectiveDates (some ds) avail ↔ x ∈ ds ∧ x ∈ avail := fun x => by
    simp [effectiveDates, List.mem_filter]
  have hnil : effectiveDates (some ds) avail = [] := by
    rw [effectiveDates]
    exact List.filter_eq_nil_iff.mpr fun a ha => by simpa using h a ha
  exact ⟨hmem, hnil, get_combined_data_empty_branch ticker frequency (some ds) save_to_disk
    output_dir avail respOf hnil⟩

/-- Witness for C6: the one requested date lies outside the availability
listing, so the effective request list is empty and the run returns the
empty dataset with only the warning log. -/
theorem empty_intersection_early_return_witness :
    effectiveDates (some ["2024-07-05"]) ["2024-07-02"] = [] ∧
    get_combined_data "BTCUSDT" "1d" (some ["2024-07-05"]) false "kucoin_data"
        (.ok ["2024-07-02"]) (fun _ => { status := 200, decoded := .ok [["r"]] })
      = .ok { combined := [], logs := [noDatesLog "BTCUSDT" "1d"], writes := [] } := by
  have h := empty_intersection_early_return "BTCUSDT" "1d" "kucoin_data" ["2024-07-05"]
      ["2024-07-02"] false (fun _ => { status := 200, decoded := .ok [["r"]] }) (by decide)
  exact ⟨h.2.1, h.2.2⟩

/-- C7: an enumeration error propagates unchanged to the caller of the
pipeline entry point, while with a successful enumeration the run returns
`.ok` for every transport/decode behaviour whatsoever (`respOf` ranges over
all possible per-date transport results, including raising decodes) — such
errors are recovered locally and never propagate. -/
theorem enumeration_error_propagates (ticker frequency output_dir : String)
    (dates : Option (List String)) (save_to_disk : Bool) (e : String)
    (avail : List String) (respOf : String → HttpResponse) :
    get_combined_data ticker frequency dates save_to_disk output_dir (.error e) respOf
        = .error e ∧
    ∃ r, get_combined_data ticker frequency dates save_to_disk output_dir (.ok avail) respOf
        = .ok r := by
  refine ⟨rfl, ?_⟩
  obtain ⟨r, hr, -, -⟩ := get_combined_data_ok ticker frequency dates save_to_disk
    output_dir avail respOf
  exact ⟨r, hr⟩

theorem mem_fetchLogs (ticker frequency : String) (ds : List String)
    (respOf : String → HttpResponse) (save_to_disk : Bool) (output_dir : String)
    (d : String) (m : LogMsg) (hd : d ∈ ds)
    (hm : m ∈ (download_and_process ticker frequency d (respOf d) save_to_disk
        output_dir).logs) :
    m ∈ fetchLogs ticker frequency ds respOf save_to_disk output_dir := by
  rw [fetchLogs, runEffects, List.map_map]
  exact List.mem_flatten.mpr ⟨_, List.mem_map_of_mem _ hd, hm⟩

theorem mem_loopLogs (ticker frequency : String) (ds : List String)
    (respOf : String → HttpResponse) (save_to_disk : Bool) (output_dir : String)
    (d e : String) (hd : d ∈ ds)
    (hret : (download_and_process ticker frequency d (respOf d) save_to_disk
        output_dir).ret = .error e) :
    excLog d e ∈ loopLogs ticker frequency ds respOf save_to_disk output_dir := by
  rw [loopLogs, runEffects]
  refine List.mem_filterMap.mpr
    ⟨(d, download_and_process ticker frequency d (respOf d) save_to_disk output_dir),
      List.mem_map_of_mem _ hd, ?_⟩
  rw [hret]

/-- C8: a run whose enumeration succeeds and whose effective request list is
nonempty always returns a best-effort combined dataset — its row count is
the sum of the row counts of the successful fetches' tables — and the failed
keys are reported separately from the row data, in the run's log: every
non-success status produces an error line naming its date and status code,
and every raised worker exception produces an error line naming its date. -/
theorem best_effort_with_failures (ticker frequency output_dir : String)
    (dates : Option (List String)) (save_to_disk : Bool) (avail : List String)
    (respOf : String → HttpResponse)
    (hne : effectiveDates dates avail ≠ []) :
    ∃ r, get_combined_data ticker frequency dates save_to_disk output_dir
        (.ok avail) respOf = .ok r ∧
      r.combined.length
        = (((effectiveDates dates avail).filterMap fun d =>
              successTable (download_and_process ticker frequency d (respOf d) save_to_disk
                output_dir).ret).map List.length).sum ∧
      (∀ d ∈ effectiveDates dates avail, (respOf d).status ≠ 200 →
        statusFailLog d (respOf d).status ∈ r.logs) ∧
      (∀ d ∈ effectiveDates dates avail, ∀ e,
        (download_and_process ticker frequency d (respOf d) save_to_disk output_dir).ret
          = .error e → excLog d e ∈ r.logs) := by
  obtain ⟨r, hr, hcomb, hlogs⟩ := get_combined_data_ok ticker frequency dates save_to_disk
    output_dir avail respOf
  obtain ⟨tail, htail⟩ := hlogs hne
  refine ⟨r, hr, ?_, ?_, ?_⟩
  · rw [hcomb, allData_eq_filterMap, List.length_flatten]
  · intro d hd hst
    rw [htail]
    refine List.mem_append_left _ (List.mem_append_left _ ?_)
    refine mem_fetchLogs ticker frequency _ respOf save_to_disk output_dir d _ hd ?_
    rw [download_and_process_nonsuccess ticker frequency d (respOf d) save_to_disk
      output_dir hst]
    exact List.mem_singleton.mpr rfl
  · intro d hd e hret
    rw [htail]
    exact List.mem_append_left _ (List.mem_append_right _
      (mem_loopLogs ticker frequency _ respOf save_to_disk output_dir d e hd hret))

/-- Witness for C8 at the spec's own test: three requested dates, two
succeeding with 10 and 15 rows, one failing with status 404 — the combined
dataset has exactly 25 rows and the failure is reported in the log, keyed by
its date and status code. -/
theorem best_effort_with_failures_witness :
    ∃ r, get_combined_data "BTCUSDT" "1d" none false "kucoin_data"
        (.ok ["2024-07-01", "2024-07-02", "2024-07-03"])
        (fun d =>
          if d = "2024-07-03" then { status := 404, decoded := .ok [] }
          else if d = "2024-07-02" then { status := 200, decoded := .ok (List.replicate 15 ["b"]) }
          else { status := 200, decoded := .ok (List.replicate 10 ["a"]) }) = .ok r ∧
      r.combined.length = 25 ∧ statusFailLog "2024-07-03" 404 ∈ r.logs := by
  obtain ⟨r, hr, hlen, hstat, -⟩ := best_effort_with_failures "BTCUSDT" "1d" "kucoin_data"
    none false ["2024-07-01", "2024-07-02", "2024-07-03"]
    (fun d =>
      if d = "2024-07-03" then { status := 404, decoded := .ok [] }
      else if d = "2024-07-02" then { status := 200, decoded := .ok (List.replicate 15 ["b"]) }
      else { status := 200, decoded := .ok (List.replicate 10 ["a"]) })
    (by decide)
  refine ⟨r, hr, ?_, hstat "2024-07-03" (by decide) (by decide)⟩
  rw [hlen]
  decide

/-- C9: the value returned by a fetch is identical whether the save flag is
set or not — the persistence side effect never affects the return value —
and on a successful decode with the flag set, the decoded table is written
exactly once, to the deterministic path
`output_dir/ticker/frequency/ticker-frequency-date.csv`. -/
theorem save_flag_side_effect_only (ticker frequency date output_dir : String)
    (resp : HttpResponse) :
    (download_and_process ticker frequency date resp true output_dir).ret
      = (download_and_process ticker frequency date resp false output_dir).ret ∧
    ∀ t : Table, resp.status = 200 → resp.decoded = .ok t →
      (download_and_process ticker frequency date resp true output_dir).writes
        = [(savePath output_dir ticker frequency date, t)] := by
  constructor
  · by_cases h : resp.status = 200
    · cases hd : resp.decoded <;> simp [download_and_process, h, hd]
    · simp [download_and_process, h]
  · intro t h hd
    simp [download_and_process, h, hd]

/-- Witness for C9: a 200 response decoding to one row, with and without the
save flag — equal returns, and the flagged call writes the decoded table to
`kucoin_data/BTCUSDT/1d/BTCUSDT-1d-2024-07-02.csv`. -/
theorem save_flag_side_effect_only_witness :
    (download_and_process "BTCUSDT" "1d" "2024-07-02"
        { status := 200, decoded := .ok [["r"]] } true "kucoin_data").ret
      = (download_and_process "BTCUSDT" "1d" "2024-07-02"
          { status := 200, decoded := .ok [["r"]] } false "kucoin_data").ret ∧
    (download_and_process "BTCUSDT" "1d" "2024-07-02"
        { status := 200, decoded := .ok [["r"]] } true "kucoin_data").writes
      = [("kucoin_data/BTCUSDT/1d/BTCUSDT-1d-2024-07-02.csv", [["r"]])] := by
  have h := save_flag_side_effect_only "BTCUSDT" "1d" "2024-07-02" "kucoin_data"
    { status := 200, decoded := .ok [["r"]] }
  refine ⟨h.1, ?_⟩
  rw [h.2 [["r"]] rfl rfl]
  rfl

theorem count_flatten_filterMap (f : String → Option Table) (row : Row)
    (d : String) (t : Table) (hd : f d = some t) (ds : List String)
    (hother : ∀ a ∈ ds, a ≠ d → ∀ u, f a = some u → row ∉ u) :
    ((ds.filterMap f).flatten).count row = ds.count d * t.count row := by
  induction ds with
  | nil => simp
  | cons a l ih =>
    have ihl := ih fun b hb => hother b (List.mem_cons_of_mem _ hb)
    by_cases ha : a = d
    · subst ha
      rw [List.filterMap_cons, hd, List.flatten_cons, List.count_append, ihl,
        List.count_cons_self]
      ring
    · have had : d ≠ a := fun hc => ha hc.symm
      have hcnt : (a :: l).count d = l.count d := List.count_cons_of_ne had l
      cases hfa : f a with
      | none => rw [List.filterMap_cons, hfa, hcnt, ihl]
      | some u =>
          have hnot : row ∉ u := hother a (List.mem_cons_self a l) ha u hfa
          rw [List.filterMap_cons, hfa, List.flatten_cons, List.count_append, ihl, hcnt,
            List.count_eq_zero.mpr hnot, Nat.zero_add]

/-- C10: a caller-supplied date appearing `k` times in the request list (and
present in the availability listing) survives the availability filter with
multiplicity `k` — it is dispatched `k` times, one worker per occurrence —
and when its fetch succeeds with table `t`, every row occurring `m` times in
`t` (and in no other date's successful table) occurs `k * m` times in the
combined dataset. -/
theorem duplicate_dates_dispatched_multiply (ticker frequency output_dir : String)
    (ds avail : List String) (save_to_disk : Bool) (respOf : String → HttpResponse)
    (d : String) (t : Table) (row : Row)
    (hav : d ∈ avail)
    (ht : successTable (download_and_process ticker frequency d (respOf d) save_to_disk
        output_dir).ret = some t)
    (hother : ∀ a ∈ effectiveDates (some ds) avail, a ≠ d → ∀ u,
        successTable (download_and_process ticker frequency a (respOf a) save_to_disk
          output_dir).ret = some u → row ∉ u) :
    (effectiveDates (some ds) avail).count d = ds.count d ∧
    ∃ r, get_combined_data ticker frequency (some ds) save_to_disk output_dir
        (.ok avail) respOf = .ok r ∧
      r.combined.count row = ds.count d * t.count row := by
  have hcount : (effectiveDates (some ds) avail).count d = ds.count d := by
    rw [effectiveDates]
    exact List.count_filter (by simpa using hav)
  refine ⟨hcount, ?_⟩
  obtain ⟨r, hr, hcomb, -⟩ := get_combined_data_ok ticker frequency (some ds) save_to_disk
    output_dir avail respOf
  refine ⟨r, hr, ?_⟩
  rw [hcomb, allData_eq_filterMap,
    count_flatten_filterMap _ row d t ht _ hother, hcount]

/-- Witness for C10: the date `2024-07-02` appears twice in the caller's
list and is available; its one-row table appears twice in the combined
dataset (row count 2 for its row), alongside the other date's row. -/
theorem duplicate_dates_dispatched_multiply_witness :
    (effectiveDates (some ["2024-07-02", "2024-07-02", "2024-07-03"])
        ["2024-07-02", "2024-07-03"]).count "2024-07-02" = 2 ∧
    ∃ r, get_combined_data "BTCUSDT" "1d"
        (some ["2024-07-02", "2024-07-02", "2024-07-03"]) false "kucoin_data"
        (.ok ["2024-07-02", "2024-07-03"])
        (fun a =>
          if a = "2024-07-03" then { status := 200, decoded := .ok [["b"]] }
          else { status := 200, decoded := .ok [["a"]] }) = .ok r ∧
      r.combined.count ["a"] = 2 := by
  obtain ⟨h1, r, hr, hcnt⟩ := duplicate_dates_dispatched_multiply "BTCUSDT" "1d"
    "kucoin_data" ["2024-07-02", "2024-07-02", "2024-07-03"] ["2024-07-02", "2024-07-03"]
    false
    (fun a =>
      if a = "2024-07-03" then { status := 200, decoded := .ok [["b"]] }
      else { status := 200, decoded := .ok [["a"]] })
    "2024-07-02" [["a"]] ["a"] (by decide) (by decide)
    (fun a ha hne u hu => by
      have ha2 : a ∈ (["2024-07-02", "2024-07-02", "2024-07-03"] : List String) := ha
      have ha3 : a = "2024-07-02" ∨ a = "2024-07-03" := by simpa using ha2
      rcases ha3 with h02 | h03
      · exact absurd h02 hne
      · subst h03
        have hu2 : u = [["b"]] := by
          have : successTable (Except.ok (some [["b"]])) = some u := hu
          simpa [successTable] using this.symm
        subst hu2
        decide)
  refine ⟨by rw [h1]; decide, r, hr, by rw [hcnt]; decide⟩

end KucoinDumper
